import Mathlib

/-!
Shallow embedding of the duplex streaming transport client
(`useWebSocket` hook, `useAudioPlayback` hook, `useAudioRecording` hook,
the chat page glue and the legacy inline client).

Stateful hook code is embedded as explicit state passing: each React ref or
state cell becomes a field of a state structure, and each handler or callback
becomes a pure transition function from state to state (plus its immediate
observable outputs: scheduled timers, socket writes, started audio sources).
-/

/-! ## Connection manager (useWebSocket.js and its gateway variant)

State cells of the hook: `isConnected`, `status`, `reconnectAttempts`.
`socketRef` is modelled where needed as an `Option Socket` argument.
-/

/-- `const maxReconnectAttempts = 5`. -/
def maxReconnectAttempts : Nat := 5

/-- `const reconnectInterval = 3000`, milliseconds. -/
def reconnectInterval : Nat := 3000

/-- The mutable state cells of the `useWebSocket` hook. -/
structure ConnState where
  isConnected : Bool
  status : String
  reconnectAttempts : Nat
deriving DecidableEq

/-- Hook state right after mount: `useState(false)`, `useState('Initializing...')`,
`useState(0)`. -/
def initConn : ConnState :=
  { isConnected := false, status := "Initializing...", reconnectAttempts := 0 }

/-- A WebSocket `CloseEvent`: the `wasClean` flag and the numeric close code. -/
structure CloseEvent where
  wasClean : Bool
  code : Nat
deriving DecidableEq

/-- The `switch(event.code)` table of the gateway-variant `socket.onclose`
handler, mapping numeric close codes to display reasons; the initial value
`"Unknown reason"` survives for any code the switch does not list. -/
def closeReasonOf (code : Nat) : String :=
  match code with
  | 1000 => "Normal closure"
  | 1001 => "Going away"
  | 1002 => "Protocol error"
  | 1003 => "Unsupported data"
  | 1005 => "No status received"
  | 1006 => "Abnormal closure - check server logs"
  | 1007 => "Invalid frame payload data"
  | 1008 => "Policy violation"
  | 1009 => "Message too big"
  | 1010 => "Mandatory extension missing"
  | 1011 => "Internal server error"
  | 1012 => "Service restart"
  | 1013 => "Try again later"
  | 1014 => "Bad gateway"
  | 1015 => "TLS handshake failure"
  | _ => "Unknown reason"

/-- The `socket.onclose` handler: clears `isConnected`, then either schedules a
reconnect (returned as `some reconnectInterval`, the delay handed to
`setTimeout(connect, reconnectInterval)`) after bumping the attempt counter, or
settles into a terminal status. Mirrors the gateway variant, whose statuses
embed the close reason; the reconnect logic is identical in both variants. -/
def onclose (s : ConnState) (e : CloseEvent) : ConnState × Option Nat :=
  let s := { s with isConnected := false }
  let closeReason := closeReasonOf e.code
  if e.wasClean = false ∧ s.reconnectAttempts < maxReconnectAttempts then
    let newAttempts := s.reconnectAttempts + 1
    ({ s with reconnectAttempts := newAttempts,
              status := "Reconnecting (" ++ toString newAttempts ++ "/" ++
                        toString maxReconnectAttempts ++ ")..." },
     some reconnectInterval)
  else if s.reconnectAttempts ≥ maxReconnectAttempts then
    ({ s with status := "Connection failed (" ++ closeReason ++ ")" }, none)
  else
    ({ s with status := "Disconnected (" ++ closeReason ++ ")" }, none)

/-- The `socket.onopen` handler: `setIsConnected(true)`, `setStatus('Connected')`,
`setReconnectAttempts(0)`. -/
def onopen (s : ConnState) : ConnState :=
  { s with isConnected := true, status := "Connected", reconnectAttempts := 0 }

/-- Fold `onclose` over a sequence of close events, collecting per-event
scheduled-reconnect results. -/
def runCloses (s : ConnState) : List CloseEvent → ConnState × List (Option Nat)
  | [] => (s, [])
  | e :: es =>
    let r := onclose s e
    let rest := runCloses r.1 es
    (rest.1, r.2 :: rest.2)

/-- `WebSocket.readyState` values: CONNECTING 0, OPEN 1, CLOSING 2, CLOSED 3. -/
def wsOPEN : Nat := 1

/-- A constructed WebSocket object, as far as the client observes it. -/
structure Socket where
  readyState : Nat
  url : String
deriving DecidableEq

/-- Outbound wire frames, tagged by their `command` field. -/
inductive OutboundCommand
  | textQuery (text : String)
  | audioData (audio : String)
  | interruptSpeech
  | toggleListen (listening : Bool)
  | toggleMuteCmd (muted : Bool)
  | ping (timestamp : Nat)
deriving DecidableEq

/-- `sendMessage`: writes one serialized frame and returns `true` only when a
socket exists and its `readyState` is `WebSocket.OPEN`; otherwise returns
`false` without writing. The second component is the list of frames actually
written to the socket by this call. -/
def sendMessage (socketRef : Option Socket) (message : OutboundCommand) :
    Bool × List OutboundCommand :=
  match socketRef with
  | some sock => if sock.readyState = wsOPEN then (true, [message]) else (false, [])
  | none => (false, [])

/-- Result of one `connect()` call of the gateway variant: the updated hook
state, the socket constructed by `new WebSocket(wsUrl)` (if any), and the
retry delay it scheduled (always `none`: `connect` itself never schedules). -/
structure ConnectResult where
  state : ConnState
  socket : Option Socket
  scheduledRetry : Option Nat
deriving DecidableEq

/-- The gateway-variant `connect()`:
`const apiGateway = process.env.NEXT_PUBLIC_WS_GATEWAY || ''` — an absent or
empty environment variable yields `''`; `if (!apiGateway)` then surfaces the
status `Configuration error` and returns before any `new WebSocket(...)`.
Otherwise it builds `wsUrl = apiGateway + '?client_id=' + clientId` and
constructs a socket in the CONNECTING state. -/
def connect (wsGatewayEnv : Option String) (clientId : String) (s : ConnState) :
    ConnectResult :=
  let apiGateway := wsGatewayEnv.getD ""
  if apiGateway = "" then
    { state := { s with status := "Configuration error" }, socket := none,
      scheduledRetry := none }
  else
    let wsUrl := apiGateway ++ "?client_id=" ++ clientId
    { state := s, socket := some { readyState := 0, url := wsUrl },
      scheduledRetry := none }

/-! ## Playback engine (useAudioPlayback.js)

Ref cells of the hook become fields. Two extra fields record what the audio
output observes: `active` is the list of `AudioBufferSourceNode`s on which
`source.start(0)` has been called and whose end notification has not yet
fired (the code never calls `source.stop`, so nothing else removes them), and
`started` is the cumulative trace of chunks in the order they were submitted
to the audio output. A PCM chunk is its list of bytes. -/

/-- Raw bytes of one inbound PCM chunk (after base64 decoding). -/
abbrev PcmChunk : Type := List Nat

/-- The mutable state of the `useAudioPlayback` hook, plus the audio-output
observation fields `active` and `started`. `ctxAvailable` models whether the
browser can construct an `AudioContext` (the `try` in `initAudioContext`). -/
structure PlaybackState where
  isPlaying : Bool
  isMuted : Bool
  pcmQueue : List PcmChunk
  isReceivingPcm : Bool
  isProcessingPcm : Bool
  pcmSampleRate : Nat
  hasAudioContext : Bool
  ctxAvailable : Bool
  active : List PcmChunk
  started : List PcmChunk
deriving DecidableEq

/-- Hook state after mount in a browser where audio works: the mount effect
already ran `initAudioContext()`. -/
def initPlayback : PlaybackState :=
  { isPlaying := false, isMuted := false, pcmQueue := [],
    isReceivingPcm := false, isProcessingPcm := false, pcmSampleRate := 24000,
    hasAudioContext := true, ctxAvailable := true, active := [], started := [] }

/-- `initAudioContext`: creates the context on first use, returns `true` on
success and `false` when construction throws. -/
def initAudioContext (s : PlaybackState) : Bool × PlaybackState :=
  if s.hasAudioContext then (true, s)
  else if s.ctxAvailable then (true, { s with hasAudioContext := true })
  else (false, s)

/-- The synchronous head of `processPcmQueue`, up to `await playbackPromise`:
bail out if the queue is empty, a chunk is already processing, or there is no
audio context; otherwise set `isProcessingPcm`, shift the head chunk, convert
it and call `source.start(0)` on it. -/
def processPcmQueueStart (s : PlaybackState) : PlaybackState :=
  if s.pcmQueue = [] ∨ s.isProcessingPcm = true ∨ s.hasAudioContext = false then s
  else
    match s.pcmQueue with
    | [] => s
    | pcmData :: rest =>
      { s with isProcessingPcm := true, pcmQueue := rest,
               active := s.active ++ [pcmData], started := s.started ++ [pcmData] }

/-- The continuation of `processPcmQueue` after `await playbackPromise`
resolves (end notification or fallback timeout of the oldest active source):
remove that source, clear `isProcessingPcm`, then either start the next
queued chunk or, when the queue is empty and the stream is no longer
receiving, flip `isPlaying` off. A resolution with no active source is a
no-op. -/
def finishChunk (s : PlaybackState) : PlaybackState :=
  match s.active with
  | [] => s
  | _ :: rest =>
    let s := { s with active := rest, isProcessingPcm := false }
    if s.pcmQueue ≠ [] then processPcmQueueStart s
    else if s.pcmQueue = [] ∧ s.isReceivingPcm = false then
      { s with isPlaying := false }
    else s

/-- `startPcmStream(sampleRate = 24000)`: refuse while muted or when the audio
context cannot be initialized; otherwise record the sample rate, mark the
session receiving, reset the queue and the processing flag, and set
`isPlaying`. -/
def startPcmStream (s : PlaybackState) (sampleRate : Nat) : Bool × PlaybackState :=
  if s.isMuted then (false, s)
  else
    let r := initAudioContext s
    if r.1 = false then (false, r.2)
    else (true, { r.2 with pcmSampleRate := sampleRate, isReceivingPcm := true,
                           pcmQueue := [], isProcessingPcm := false,
                           isPlaying := true })

/-- `endPcmStream()`: mark not-receiving, then kick the queue processor if
data is still queued and nothing is processing. The queue itself is kept. -/
def endPcmStream (s : PlaybackState) : PlaybackState :=
  let s := { s with isReceivingPcm := false }
  if s.pcmQueue ≠ [] ∧ s.isProcessingPcm = false then processPcmQueueStart s
  else s

/-- `processPcmChunk(base64data)` after base64 decoding (`atob` plus the byte
loop, abstracted into the `bytes` argument): drop the chunk while muted or
while no PCM stream is receiving; otherwise push it on the queue and kick the
queue processor if it is idle. -/
def processPcmChunk (s : PlaybackState) (bytes : PcmChunk) : PlaybackState :=
  if s.isMuted = true ∨ s.isReceivingPcm = false then s
  else
    let s := { s with pcmQueue := s.pcmQueue ++ [bytes] }
    if s.isProcessingPcm = false then processPcmQueueStart s else s

/-- `interruptPlayback()`: when `isPlaying`, pause the clip audio element,
clear the receiving flag, discard the queue, reset the processing flag, set
`isPlaying` false and return `true`; otherwise return `false` and change
nothing. The in-flight source node is not stopped (`source.stop` is never
called), so `active` is untouched. -/
def interruptPlayback (s : PlaybackState) : Bool × PlaybackState :=
  if s.isPlaying then
    (true, { s with isReceivingPcm := false, pcmQueue := [],
                    isProcessingPcm := false, isPlaying := false })
  else (false, s)

/-- The events the playback engine reacts to. -/
inductive PlaybackEvent
  | streamStart (sampleRate : Nat)
  | chunk (bytes : PcmChunk)
  | streamEnd
  | finish
  | interrupt

/-- One event step of the playback engine. -/
def pstep (s : PlaybackState) : PlaybackEvent → PlaybackState
  | .streamStart r => (startPcmStream s r).2
  | .chunk b => processPcmChunk s b
  | .streamEnd => endPcmStream s
  | .finish => finishChunk s
  | .interrupt => (interruptPlayback s).2

/-- Run a sequence of playback events. -/
def prun (s : PlaybackState) : List PlaybackEvent → PlaybackState
  | [] => s
  | e :: es => prun (pstep s e) es

/-- The chunks enqueued by an event sequence, in their arrival order. -/
def enqOf : List PlaybackEvent → List PcmChunk
  | [] => []
  | .chunk b :: es => b :: enqOf es
  | _ :: es => enqOf es

/-- Events that can occur strictly inside one PCM stream: chunk arrival, the
stream end marker, and end-of-playback notifications — no barge-in and no
second stream start. -/
def inStreamEvent : PlaybackEvent → Bool
  | .chunk _ => true
  | .streamEnd => true
  | .finish => true
  | _ => false

/-- The single-flight invariant on the audio output: at most one started
source is unfinished, and an idle processor has no unfinished source. -/
def SingleFlight (s : PlaybackState) : Prop :=
  s.active.length ≤ 1 ∧ (s.isProcessingPcm = false → s.active = [])

/-- The C6 scenario: `audio_stream_start` at 24000 Hz, three `audio_chunk`
frames, `audio_stream_end`, then the three end-of-playback notifications. -/
def c6Events : List PlaybackEvent :=
  [.streamStart 24000, .chunk [1], .chunk [2], .chunk [3], .streamEnd,
   .finish, .finish, .finish]

/-! ## Codec (convertPcmToAudioBuffer)

The per-sample conversion of `convertPcmToAudioBuffer`, over exact rationals:
`const sample = (pcmData[offset] & 0xff) | ((pcmData[offset + 1] & 0xff) << 8)`
then
`channelData[i] = (sample >= 0x8000) ? -1 + ((sample & 0x7fff) / 0x8000) : sample / 0x7fff`.
-/

/-- One sample of the chunk decoder: two bytes combined little-endian, then
mapped to a normalized float. -/
def decodeSample (b0 b1 : Nat) : ℚ :=
  let sample : Nat := (b0 &&& 0xff) ||| ((b1 &&& 0xff) <<< 8)
  if sample ≥ 0x8000 then -1 + (((sample &&& 0x7fff : Nat) : ℚ) / 0x8000)
  else (sample : ℚ) / 0x7fff

/-- The whole-buffer decoder: `numSamples = pcmData.length / 2` byte pairs,
each decoded by `decodeSample`; a trailing odd byte is ignored by the integer
division. -/
def convertPcmToAudioBuffer : List Nat → List ℚ
  | b0 :: b1 :: rest => decodeSample b0 b1 :: convertPcmToAudioBuffer rest
  | _ => []

/-- Modelled from the spec: the reference 16-bit signed little-endian PCM
encoder of the round-trip property (no encoder to PCM exists in the client);
a sample in `[-1, 1]` is scaled to a signed 16-bit integer (by `32767` for
nonnegative samples, by `32768` for negative ones, rounding to nearest) and
laid out as two's-complement little-endian bytes. -/
def encodeSample (x : ℚ) : Nat × Nat :=
  let s : ℤ := if 0 ≤ x then round (x * 32767) else round (x * 32768)
  let n : Nat := (s % 65536).toNat
  (n % 256, n / 256)

/-- Modelled from the spec: encode a sequence of samples into the byte stream
of consecutive little-endian pairs. -/
def encodePcm : List ℚ → List Nat
  | [] => []
  | x :: xs => (encodeSample x).1 :: (encodeSample x).2 :: encodePcm xs

/-! ## Capture controller (useAudioRecording.js) and page glue (ChatInterface)

Only what the claims need: `toggleRecording` of the current client, the
legacy client inline `toggleRecording`/`interruptSpeech`, and the page
`sendTextQuery`. -/

/-- The `useState` cells of `useAudioRecording`. -/
structure RecState where
  isRecording : Bool
  isListening : Bool
deriving DecidableEq

/-- `startRecording` of the current client, collapsed over the microphone
permission outcome `micOk`: a no-op when already recording; on success both
flags are set; on `getUserMedia` failure both are cleared. It touches no
playback state and writes nothing to the socket. -/
def startRecording (micOk : Bool) (r : RecState) : RecState :=
  if r.isRecording then r
  else if micOk then { isRecording := true, isListening := true }
  else { isRecording := false, isListening := false }

/-- `stopRecording` of the current client: clears both flags. -/
def stopRecording (_r : RecState) : RecState :=
  { isRecording := false, isListening := false }

/-- `toggleRecording` of the current client (`useAudioRecording`): start or
stop recording. It receives the playback state only to make explicit that it
does not touch it, and its frame list is its socket writes (none). -/
def toggleRecording (micOk : Bool) (r : RecState) (pb : PlaybackState) :
    RecState × PlaybackState × List OutboundCommand :=
  if r.isRecording then (stopRecording r, pb, [])
  else (startRecording micOk r, pb, [])

/-- `sendTextQuery` of the chat page: refuse on empty text or while
disconnected; if the assistant is speaking, interrupt local playback and send
`interrupt_speech`; then send the `text_query` frame. Returns the frames
written (in order) and the updated playback state. -/
def sendTextQuery (isConnected : Bool) (pb : PlaybackState) (text : String) :
    List OutboundCommand × PlaybackState :=
  if text = "" ∨ isConnected = false then ([], pb)
  else if pb.isPlaying then
    ([OutboundCommand.interruptSpeech, OutboundCommand.textQuery text],
     (interruptPlayback pb).2)
  else ([OutboundCommand.textQuery text], pb)

/-- `interruptSpeech` of the legacy inline client: when the assistant is
speaking, stop the audio element and notify the server with one
`interrupt_speech` frame (if the socket is open). Returns the new
`isAssistantSpeaking` flag and the frames written. -/
def interruptSpeech (speaking sockOpen : Bool) : Bool × List OutboundCommand :=
  if speaking then
    (false, if sockOpen then [OutboundCommand.interruptSpeech] else [])
  else (speaking, [])

/-- `toggleRecording` of the legacy inline client: stopping sends no
interrupt; starting first interrupts the assistant if it is speaking, then
starts recording (which notifies the server with `toggle_listen` when the
socket is open). Returns the frames written, in order. -/
def legacyToggleRecording (isRecording speaking sockOpen micOk : Bool) :
    List OutboundCommand :=
  if isRecording then []
  else
    let r := interruptSpeech speaking sockOpen
    r.2 ++ (if micOk ∧ sockOpen then [OutboundCommand.toggleListen true] else [])

/-! ## Helper lemmas -/

/-- Once the attempt counter has reached the cap, a close event never
schedules a reconnect and never changes the counter. -/
theorem onclose_saturated (s : ConnState) (e : CloseEvent)
    (h : maxReconnectAttempts ≤ s.reconnectAttempts) :
    (onclose s e).2 = none ∧
      (onclose s e).1.reconnectAttempts = s.reconnectAttempts := by
  simp only [onclose]
  split_ifs with h1
  · exact absurd h1.2 (by omega)
  · simp

/-- Over any sequence of close events from a saturated counter, no reconnect
is ever scheduled. -/
theorem runCloses_saturated (es : List CloseEvent) (s : ConnState)
    (h : maxReconnectAttempts ≤ s.reconnectAttempts) :
    ((runCloses s es).2.all (·.isNone)) = true := by
  induction es generalizing s with
  | nil => rfl
  | cons e es ih =>
    have hs := onclose_saturated s e h
    simp only [runCloses, List.all_cons, Bool.and_eq_true]
    refine ⟨by simp [hs.1], ih _ ?_⟩
    omega

/-! ## Claim theorems -/

/-- C1: on every socket close event, a reconnect is scheduled exactly when
`wasClean` is false and the attempt counter is below `maxReconnectAttempts`
(5); every such close increments the counter by one and schedules the retry
after the fixed 3000 ms delay; the counter never decreases on a close and is
reset to 0 only by a successful open; a clean close never schedules a
reconnect; and once the counter has reached 5, no close event of any further
sequence ever schedules a reconnect. -/
theorem reconnect_backoff_policy (s : ConnState) (e : CloseEvent)
    (k : Nat) (es : List CloseEvent) :
    ((onclose s e).2 =
      if e.wasClean = false ∧ s.reconnectAttempts < maxReconnectAttempts
        then some reconnectInterval else none) ∧
    ((onclose s e).1.reconnectAttempts =
      if e.wasClean = false ∧ s.reconnectAttempts < maxReconnectAttempts
        then s.reconnectAttempts + 1 else s.reconnectAttempts) ∧
    s.reconnectAttempts ≤ (onclose s e).1.reconnectAttempts ∧
    (onopen s).reconnectAttempts = 0 ∧
    (∀ code, (onclose s { wasClean := true, code := code }).2 = none) ∧
    ((runCloses { s with reconnectAttempts := maxReconnectAttempts + k } es).2.all
      (·.isNone)) = true := by
  refine ⟨?_, ?_, ?_, rfl, ?_, ?_⟩
  · simp only [onclose]; split_ifs <;> simp
  · simp only [onclose]; split_ifs <;> simp
  · simp only [onclose]; split_ifs <;> simp
  · intro code; simp only [onclose]; split_ifs <;> simp_all
  · exact runCloses_saturated es _ (by simp)

/-- C3: `interruptPlayback` with nothing playing (in particular with an empty
queue and not receiving) returns `false` and leaves the state unchanged;
during active playback it returns `true`, empties the queue, marks the
session not-receiving and clears `isPlaying`; in general it returns `true`
exactly when something was playing. -/
theorem interruptPlayback_spec (s : PlaybackState) :
    ((interruptPlayback s).1 = s.isPlaying) ∧
    (s.isPlaying = false → interruptPlayback s = (false, s)) ∧
    (s.isPlaying = true →
      (interruptPlayback s).1 = true ∧
      (interruptPlayback s).2.pcmQueue = [] ∧
      (interruptPlayback s).2.isReceivingPcm = false ∧
      (interruptPlayback s).2.isPlaying = false) := by
  unfold interruptPlayback
  by_cases h : s.isPlaying <;> simp [h]

/-- Witness for `interruptPlayback_spec` at a concrete state with active
playback. -/
theorem interruptPlayback_spec_witness :
    (({ initPlayback with isPlaying := true } : PlaybackState).isPlaying = true →
      (interruptPlayback { initPlayback with isPlaying := true }).1 = true ∧
      (interruptPlayback { initPlayback with isPlaying := true }).2.pcmQueue = [] ∧
      (interruptPlayback { initPlayback with isPlaying := true }).2.isReceivingPcm = false ∧
      (interruptPlayback { initPlayback with isPlaying := true }).2.isPlaying = false) :=
  (interruptPlayback_spec { initPlayback with isPlaying := true }).2.2

/-- C4: `sendMessage` returns `true` and writes exactly the one serialized
frame precisely when a socket exists and is in the OPEN ready state; in every
other connection state it returns `false` and writes nothing, and no command
is retained for later delivery. -/
theorem sendMessage_only_when_open (sock : Option Socket) (cmd : OutboundCommand) :
    ((sendMessage sock cmd).1 = true ↔ ∃ s, sock = some s ∧ s.readyState = wsOPEN) ∧
    ((sendMessage sock cmd).2 = if (sendMessage sock cmd).1 = true then [cmd] else []) := by
  cases sock with
  | none => simp [sendMessage]
  | some s =>
    by_cases h : s.readyState = wsOPEN <;> simp [sendMessage, h]

/-- C8: with the gateway environment variable absent or empty, `connect()`
surfaces the status `Configuration error`, constructs no socket object, and
schedules nothing (the terminal failed outcome). -/
theorem connect_unconfigured_gateway (env : Option String) (cid : String)
    (s : ConnState) (h : env = none ∨ env = some "") :
    (connect env cid s).state.status = "Configuration error" ∧
    (connect env cid s).socket = none ∧
    (connect env cid s).scheduledRetry = none := by
  rcases h with h | h <;> subst h <;> simp [connect]

/-- Witness for `connect_unconfigured_gateway` with the variable absent. -/
theorem connect_unconfigured_gateway_witness :
    ((none : Option String) = none ∨ (none : Option String) = some "") ∧
    ((connect none "client-abc1234" initConn).state.status = "Configuration error" ∧
     (connect none "client-abc1234" initConn).socket = none ∧
     (connect none "client-abc1234" initConn).scheduledRetry = none) :=
  ⟨Or.inl rfl, connect_unconfigured_gateway none "client-abc1234" initConn (Or.inl rfl)⟩

/-- C9 counterexample: code 1004, though inside 1000–1015, is missing from the
switch and falls to the same default reason as a non-standard code; and the
numeric code does not decide reconnection: an unclean close with code 1000
schedules a reconnect, while a clean close with code 1006 suppresses it. -/
theorem close_code_policy_counterexample :
    closeReasonOf 1004 = "Unknown reason" ∧
    closeReasonOf 1004 = closeReasonOf 4999 ∧
    (onclose initConn { wasClean := false, code := 1000 }).2 = some reconnectInterval ∧
    (onclose initConn { wasClean := true, code := 1006 }).2 = none := by
  refine ⟨rfl, rfl, ?_, ?_⟩ <;>
    simp [onclose, initConn, maxReconnectAttempts]

/-- C9 amended: the close handler maps every standard close code 1000–1015
except the reserved 1004 to a specific human-readable reason (1004, like any
unknown code, shows the default), and whether a close suppresses reconnection
is decided solely by the `wasClean` flag and the attempt cap, never by the
numeric code: no reconnect is scheduled iff the close was clean or the
counter has reached 5. -/
theorem close_code_mapping_wasClean :
    (((List.range 16).all fun i =>
        decide (i = 4) || !decide (closeReasonOf (1000 + i) = "Unknown reason")) = true) ∧
    (∀ s e, (onclose s e).2 = none ↔
      (e.wasClean = true ∨ maxReconnectAttempts ≤ s.reconnectAttempts)) := by
  refine ⟨by decide, ?_⟩
  intro s e
  simp only [onclose]
  split_ifs with h1 h2
  · obtain ⟨hw, hlt⟩ := h1
    simp [hw, Nat.not_le.mpr hlt]
  · simp only [Option.some.injEq]
    constructor
    · intro _
      exact Or.inr h2
    · intro _
      trivial
  · have hlt : s.reconnectAttempts < maxReconnectAttempts := Nat.lt_of_not_le h2
    have hw : e.wasClean = true := by
      cases hw : e.wasClean
      · exact absurd ⟨hw, hlt⟩ h1
      · rfl
    simp [hw]

/-- C10: a chunk delivered while the player is muted or while no PCM stream
is receiving is silently discarded — `processPcmChunk` returns the state
unchanged; and `startPcmStream` while muted returns `false` and changes no
playback state. -/
theorem discard_when_muted_or_idle (s : PlaybackState) (bytes : PcmChunk)
    (rate : Nat) (h : s.isMuted = true ∨ s.isReceivingPcm = false) :
    processPcmChunk s bytes = s ∧
    (s.isMuted = true → startPcmStream s rate = (false, s)) := by
  constructor
  · simp only [processPcmChunk]
    split_ifs
    · rfl
  · intro hm
    simp [startPcmStream, hm]

/-- Witness for `discard_when_muted_or_idle` at a muted state. -/
theorem discard_when_muted_or_idle_witness :
    (({ initPlayback with isMuted := true } : PlaybackState).isMuted = true ∨
      ({ initPlayback with isMuted := true } : PlaybackState).isReceivingPcm = false) ∧
    (processPcmChunk { initPlayback with isMuted := true } [7, 0] =
      { initPlayback with isMuted := true } ∧
     (({ initPlayback with isMuted := true } : PlaybackState).isMuted = true →
        startPcmStream { initPlayback with isMuted := true } 24000 =
          (false, { initPlayback with isMuted := true }))) :=
  ⟨Or.inl rfl,
   discard_when_muted_or_idle { initPlayback with isMuted := true } [7, 0] 24000 (Or.inl rfl)⟩

/-- `processPcmQueueStart` only moves the queue head to the started trace:
the concatenation of trace and queue is preserved, and the flags other than
`isProcessingPcm` are untouched. -/
theorem processPcmQueueStart_trace (s : PlaybackState) :
    (processPcmQueueStart s).started ++ (processPcmQueueStart s).pcmQueue =
      s.started ++ s.pcmQueue ∧
    (processPcmQueueStart s).isPlaying = s.isPlaying ∧
    (processPcmQueueStart s).isMuted = s.isMuted ∧
    (processPcmQueueStart s).isReceivingPcm = s.isReceivingPcm ∧
    (processPcmQueueStart s).hasAudioContext = s.hasAudioContext := by
  unfold processPcmQueueStart
  split_ifs with h1
  · simp
  · cases hq : s.pcmQueue with
    | nil => simp [hq] at h1
    | cons c rest => simp

/-- `processPcmQueueStart` preserves the single-flight invariant. -/
theorem processPcmQueueStart_sf (s : PlaybackState) (h : SingleFlight s) :
    SingleFlight (processPcmQueueStart s) := by
  unfold processPcmQueueStart
  split_ifs with h1
  · exact h
  · cases hq : s.pcmQueue with
    | nil => simp [hq] at h1
    | cons c rest =>
      have hproc : s.isProcessingPcm = false := by
        rcases h1' : s.isProcessingPcm with _ | _
        · rfl
        · exact absurd (Or.inr (Or.inl h1')) h1
      have hactive : s.active = [] := h.2 hproc
      refine ⟨?_, ?_⟩
      · simp [hactive]
      · intro hfalse
        simp at hfalse

/-- One playback event can only extend the trace-plus-queue concatenation on
the right by the newly enqueued chunk (if any) or truncate its queue part:
the new concatenation is a sublist of the old one followed by the new
arrivals. -/
theorem pstep_trace (s : PlaybackState) (e : PlaybackEvent) :
    ((pstep s e).started ++ (pstep s e).pcmQueue).Sublist
      (s.started ++ s.pcmQueue ++ enqOf [e]) := by
  cases e with
  | streamStart rate =>
    simp only [pstep, startPcmStream, initAudioContext, enqOf, List.append_nil]
    split_ifs <;> dsimp only <;>
      first
        | exact List.Sublist.refl _
        | simpa using List.sublist_append_left _ _
  | chunk b =>
    simp only [pstep, processPcmChunk, enqOf]
    split_ifs with h1 h2
    · exact List.sublist_append_left _ _
    · have ht := (processPcmQueueStart_trace
        { s with pcmQueue := s.pcmQueue ++ [b] }).1
      simp only [ht]
      try dsimp only
      simp [List.append_assoc]
    · try dsimp only
      simp [List.append_assoc]
  | streamEnd =>
    simp only [pstep, endPcmStream, enqOf, List.append_nil]
    split_ifs with h1
    · have ht := (processPcmQueueStart_trace { s with isReceivingPcm := false }).1
      simp only [ht]
      try dsimp only
      exact List.Sublist.refl _
    · try dsimp only
      exact List.Sublist.refl _
  | finish =>
    simp only [pstep, finishChunk, enqOf, List.append_nil]
    cases ha : s.active with
    | nil => exact List.Sublist.refl _
    | cons c rest =>
      split_ifs with h1 h2
      · have ht := (processPcmQueueStart_trace
          { s with active := rest, isProcessingPcm := false }).1
        simp only [ht]
        try dsimp only
        exact List.Sublist.refl _
      · try dsimp only
        exact List.Sublist.refl _
      · try dsimp only
        exact List.Sublist.refl _
  | interrupt =>
    simp only [pstep, interruptPlayback, enqOf, List.append_nil]
    split_ifs with h1 <;> dsimp only
    · simpa using List.sublist_append_left _ _
    · exact List.Sublist.refl _

/-- Splitting the enqueued chunks of an event list at its head event. -/
theorem enqOf_cons (e : PlaybackEvent) (es : List PlaybackEvent) :
    enqOf (e :: es) = enqOf [e] ++ enqOf es := by
  cases e <;> simp [enqOf]

/-- Over any run, the trace-plus-queue concatenation is a sublist of the
starting concatenation followed by all arrivals, in order. -/
theorem prun_trace (evs : List PlaybackEvent) (s : PlaybackState) :
    ((prun s evs).started ++ (prun s evs).pcmQueue).Sublist
      (s.started ++ s.pcmQueue ++ enqOf evs) := by
  induction evs generalizing s with
  | nil => simp [prun, enqOf]
  | cons e es ih =>
    have h1 := ih (pstep s e)
    have h2 := (pstep_trace s e).append_right (enqOf es)
    rw [enqOf_cons, ← List.append_assoc]
    exact h1.trans (by simpa [List.append_assoc] using h2)

/-- Every in-stream event preserves the single-flight invariant. -/
theorem pstep_sf (s : PlaybackState) (e : PlaybackEvent)
    (h : SingleFlight s) (he : inStreamEvent e = true) :
    SingleFlight (pstep s e) := by
  cases e with
  | streamStart rate => simp [inStreamEvent] at he
  | interrupt => simp [inStreamEvent] at he
  | chunk b =>
    simp only [pstep, processPcmChunk]
    split_ifs with h1 h2
    · exact h
    · exact processPcmQueueStart_sf _ ⟨h.1, fun _ => h.2 h2⟩
    · exact ⟨h.1, fun hf => h.2 hf⟩
  | streamEnd =>
    simp only [pstep, endPcmStream]
    split_ifs with h1
    · exact processPcmQueueStart_sf _ ⟨h.1, fun _ => h.2 h1.2⟩
    · exact ⟨h.1, fun hf => h.2 hf⟩
  | finish =>
    simp only [pstep, finishChunk]
    cases ha : s.active with
    | nil => exact h
    | cons c rest =>
      have hrest : rest = [] := by
        have := h.1
        rw [ha] at this
        simpa using this
      subst hrest
      split_ifs with h1 h2
      · exact processPcmQueueStart_sf _ ⟨by simp, fun _ => rfl⟩
      · exact ⟨by simp, fun _ => rfl⟩
      · exact ⟨by simp, fun _ => rfl⟩

/-- The single-flight invariant is preserved along any in-stream run. -/
theorem prun_sf (evs : List PlaybackEvent) (s : PlaybackState)
    (h : SingleFlight s) (he : evs.all inStreamEvent = true) :
    SingleFlight (prun s evs) := by
  induction evs generalizing s with
  | nil => exact h
  | cons e es ih =>
    simp only [List.all_cons, Bool.and_eq_true] at he
    exact ih (pstep s e) (pstep_sf s e h he.1) he.2

/-- C2 counterexample: the engine is not single-flight at every moment — the
in-flight source is never stopped, so a `stream_start` arriving while a chunk
is still rendering resets the processing flag and lets a second source start
while the first is still active: after start, chunk, start, chunk, two
sources are rendering at once. -/
theorem playback_overlap_on_restart :
    (prun initPlayback
      [PlaybackEvent.streamStart 24000, PlaybackEvent.chunk [1],
       PlaybackEvent.streamStart 24000, PlaybackEvent.chunk [2]]).active =
      [[1], [2]] ∧
    1 < (prun initPlayback
      [PlaybackEvent.streamStart 24000, PlaybackEvent.chunk [1],
       PlaybackEvent.streamStart 24000, PlaybackEvent.chunk [2]]).active.length := by
  constructor <;> decide

/-- C2 amended: the render-start order always follows the enqueue order (the
started trace is a sublist of the arrivals, for every event sequence,
including barge-ins and restarts); and at most one chunk is ever being
rendered during a single stream — a run of chunk arrivals, stream end and
end-of-playback notifications, with no interrupt and no second stream start
while a chunk is in flight. -/
theorem playback_fifo_single_flight (evs : List PlaybackEvent)
    (rate : Nat) (k : Nat) (hin : evs.all inStreamEvent = true) :
    (∀ anyEvs : List PlaybackEvent,
      (prun initPlayback anyEvs).started.Sublist (enqOf anyEvs)) ∧
    (prun (pstep initPlayback (PlaybackEvent.streamStart rate))
      (evs.take k)).active.length ≤ 1 := by
  constructor
  · intro anyEvs
    have h := prun_trace anyEvs initPlayback
    have h0 : (prun initPlayback anyEvs).started.Sublist
        ((prun initPlayback anyEvs).started ++ (prun initPlayback anyEvs).pcmQueue) :=
      List.sublist_append_left _ _
    simpa [initPlayback] using h0.trans h
  · have hsf : SingleFlight (pstep initPlayback (PlaybackEvent.streamStart rate)) := by
      refine ⟨?_, fun _ => ?_⟩ <;>
        simp [pstep, startPcmStream, initAudioContext, initPlayback]
    have hin2 : (evs.take k).all inStreamEvent = true := by
      rw [List.all_eq_true] at hin ⊢
      intro x hx
      exact hin x (List.mem_of_mem_take hx)
    exact (prun_sf _ _ hsf hin2).1

/-- Witness for `playback_fifo_single_flight` on a short in-stream run. -/
theorem playback_fifo_single_flight_witness :
    ([PlaybackEvent.chunk [5], PlaybackEvent.streamEnd, PlaybackEvent.finish].all
        inStreamEvent = true) ∧
    ((∀ anyEvs : List PlaybackEvent,
        (prun initPlayback anyEvs).started.Sublist (enqOf anyEvs)) ∧
     (prun (pstep initPlayback (PlaybackEvent.streamStart 24000))
        (List.take 2 [PlaybackEvent.chunk [5], PlaybackEvent.streamEnd,
          PlaybackEvent.finish])).active.length ≤ 1) :=
  ⟨by decide,
   playback_fifo_single_flight
     [PlaybackEvent.chunk [5], PlaybackEvent.streamEnd, PlaybackEvent.finish]
     24000 2 (by decide)⟩

/-- When an end-of-playback notification turns `isPlaying` off, the queue had
emptied and the stream was no longer receiving. -/
theorem finishChunk_playing_off (t : PlaybackState) (hp : t.isPlaying = true)
    (hf : (finishChunk t).isPlaying = false) :
    (finishChunk t).pcmQueue = [] ∧ (finishChunk t).isReceivingPcm = false := by
  rcases ha : t.active with _ | ⟨c, rest⟩
  · have heq : finishChunk t = t := by
      simp [finishChunk, ha]
    rw [heq] at hf
    rw [hf] at hp
    simp at hp
  · rcases hq : t.pcmQueue with _ | ⟨q, qs⟩
    · rcases hr : t.isReceivingPcm with _ | _
      · constructor <;> simp [finishChunk, ha, hq, hr]
      · exfalso
        have heq : (finishChunk t).isPlaying = t.isPlaying := by
          simp [finishChunk, ha, hq, hr]
        rw [heq, hp] at hf
        simp at hf
    · exfalso
      have heq : finishChunk t =
          processPcmQueueStart { t with active := rest, isProcessingPcm := false } := by
        simp [finishChunk, ha, hq]
      have hpl := (processPcmQueueStart_trace
        { t with active := rest, isProcessingPcm := false }).2.1
      rw [heq, hpl] at hf
      dsimp only at hf
      rw [hf] at hp
      simp at hp

/-- C6: `endPcmStream` marks the session not-receiving but keeps every queued
chunk (the trace-plus-queue concatenation is unchanged); the end-of-playback
handler turns `isPlaying` off only when the queue has emptied while not
receiving; and in the stream-start, three-chunks, stream-end scenario all
three chunks are rendered in order and `isPlaying` turns false exactly at the
third end-of-playback notification. -/
theorem endPcmStream_drains_queue (s t : PlaybackState) :
    ((endPcmStream s).isReceivingPcm = false ∧
     (endPcmStream s).started ++ (endPcmStream s).pcmQueue =
       s.started ++ s.pcmQueue) ∧
    (t.isPlaying = true → (finishChunk t).isPlaying = false →
       (finishChunk t).pcmQueue = [] ∧ (finishChunk t).isReceivingPcm = false) ∧
    ((prun initPlayback c6Events).started = [[1], [2], [3]] ∧
     (prun initPlayback c6Events).isPlaying = false ∧
     ((List.range 7).all fun k =>
        (prun initPlayback (c6Events.take (k + 1))).isPlaying) = true) := by
  refine ⟨⟨?_, ?_⟩, finishChunk_playing_off t, ?_⟩
  · simp only [endPcmStream]
    split_ifs with h1
    · have := (processPcmQueueStart_trace { s with isReceivingPcm := false }).2.2.2.1
      simpa using this
    · rfl
  · simp only [endPcmStream]
    split_ifs with h1
    · have := (processPcmQueueStart_trace { s with isReceivingPcm := false }).1
      simpa using this
    · rfl
  · refine ⟨?_, ?_, ?_⟩ <;> decide

/-- Witness for `endPcmStream_drains_queue` at concrete states. -/
theorem endPcmStream_drains_queue_witness :
    ((endPcmStream { initPlayback with isReceivingPcm := true, pcmQueue := [[9]] }).isReceivingPcm = false ∧
     (endPcmStream { initPlayback with isReceivingPcm := true, pcmQueue := [[9]] }).started ++
       (endPcmStream { initPlayback with isReceivingPcm := true, pcmQueue := [[9]] }).pcmQueue =
       ({ initPlayback with isReceivingPcm := true, pcmQueue := [[9]] } : PlaybackState).started ++
       ({ initPlayback with isReceivingPcm := true, pcmQueue := [[9]] } : PlaybackState).pcmQueue) ∧
    (({ initPlayback with isPlaying := true, active := [[4]] } : PlaybackState).isPlaying = true →
      (finishChunk { initPlayback with isPlaying := true, active := [[4]] }).isPlaying = false →
      (finishChunk { initPlayback with isPlaying := true, active := [[4]] }).pcmQueue = [] ∧
      (finishChunk { initPlayback with isPlaying := true, active := [[4]] }).isReceivingPcm = false) ∧
    ((prun initPlayback c6Events).started = [[1], [2], [3]] ∧
     (prun initPlayback c6Events).isPlaying = false ∧
     ((List.range 7).all fun k =>
        (prun initPlayback (c6Events.take (k + 1))).isPlaying) = true) :=
  endPcmStream_drains_queue
    { initPlayback with isReceivingPcm := true, pcmQueue := [[9]] }
    { initPlayback with isPlaying := true, active := [[4]] }

/-- C7 counterexample: in the current client, toggling the microphone while
playback is active neither interrupts local playback nor sends any frame —
in particular no `interrupt_speech` — so the rule does not apply to the mic
toggle there. -/
theorem toggleRecording_no_interrupt :
    (toggleRecording true { isRecording := false, isListening := false }
      { initPlayback with isPlaying := true }).2.1.isPlaying = true ∧
    (toggleRecording true { isRecording := false, isListening := false }
      { initPlayback with isPlaying := true }).2.2 = [] := by
  constructor <;> rfl

/-- C7 amended: `sendTextQuery` implements the barge-in rule — with nonempty
text, connected, and playback active, it writes exactly the frames
`interrupt_speech` then `text_query` (one interrupt, ordered first) and stops
local playback immediately; with playback inactive it writes only
`text_query` and leaves playback alone. The microphone toggle implements the
rule only in the legacy client, whose `toggleRecording` sends
`interrupt_speech` before the listen toggle; the current client
`toggleRecording` writes nothing and leaves the playback state untouched. -/
theorem interrupt_before_new_action (pb : PlaybackState) (text : String)
    (micOk : Bool) (r : RecState) (ht : text ≠ "") :
    (pb.isPlaying = true →
      sendTextQuery true pb text =
        ([OutboundCommand.interruptSpeech, OutboundCommand.textQuery text],
          (interruptPlayback pb).2) ∧
      (sendTextQuery true pb text).2.isPlaying = false) ∧
    (pb.isPlaying = false →
      sendTextQuery true pb text = ([OutboundCommand.textQuery text], pb)) ∧
    (legacyToggleRecording false true true true =
      [OutboundCommand.interruptSpeech, OutboundCommand.toggleListen true]) ∧
    ((toggleRecording micOk r pb).2.1 = pb ∧
      (toggleRecording micOk r pb).2.2 = []) := by
  refine ⟨?_, ?_, rfl, ?_⟩
  · intro hp
    constructor
    · simp [sendTextQuery, ht, hp]
    · simp [sendTextQuery, ht, hp, interruptPlayback]
  · intro hp
    simp [sendTextQuery, ht, hp]
  · unfold toggleRecording
    split_ifs <;> exact ⟨rfl, rfl⟩

/-- Witness for `interrupt_before_new_action` with active playback. -/
theorem interrupt_before_new_action_witness :
    ("show tables" ≠ "") ∧
    ((({ initPlayback with isPlaying := true } : PlaybackState).isPlaying = true →
        sendTextQuery true { initPlayback with isPlaying := true } "show tables" =
          ([OutboundCommand.interruptSpeech, OutboundCommand.textQuery "show tables"],
            (interruptPlayback { initPlayback with isPlaying := true }).2) ∧
        (sendTextQuery true { initPlayback with isPlaying := true }
          "show tables").2.isPlaying = false) ∧
     (({ initPlayback with isPlaying := true } : PlaybackState).isPlaying = false →
        sendTextQuery true { initPlayback with isPlaying := true } "show tables" =
          ([OutboundCommand.textQuery "show tables"],
            { initPlayback with isPlaying := true })) ∧
     (legacyToggleRecording false true true true =
        [OutboundCommand.interruptSpeech, OutboundCommand.toggleListen true]) ∧
     ((toggleRecording true { isRecording := false, isListening := false }
         { initPlayback with isPlaying := true }).2.1 =
        { initPlayback with isPlaying := true } ∧
      (toggleRecording true { isRecording := false, isListening := false }
         { initPlayback with isPlaying := true }).2.2 = [])) :=
  ⟨by decide,
   interrupt_before_new_action { initPlayback with isPlaying := true } "show tables"
     true { isRecording := false, isListening := false } (by decide)⟩

/-- Recombining the little-endian byte pair of a 16-bit value through the
decoder bit operations yields the two-branch signed interpretation. -/
theorem decodeSample_eq (n : Nat) (hn : n < 65536) :
    decodeSample (n % 256) (n / 256) =
      if 32768 ≤ n then -1 + (((n % 32768 : Nat) : ℚ) / 32768)
      else (n : ℚ) / 32767 := by
  have e0 : n % 256 &&& 255 = n % 256 := by
    have h := Nat.and_pow_two_sub_one_eq_mod (n % 256) 8
    norm_num at h
    rw [h]
    try omega
  have e1 : n / 256 &&& 255 = n / 256 := by
    have h := Nat.and_pow_two_sub_one_eq_mod (n / 256) 8
    norm_num at h
    rw [h]
    try omega
  have e2 : (n / 256) <<< 8 = 256 * (n / 256) := by
    rw [Nat.shiftLeft_eq]
    ring
  have hb : n % 256 < 2 ^ 8 := by omega
  have e3 : (n % 256) ||| (256 * (n / 256)) = n := by
    have h := Nat.mul_add_lt_is_or hb (n / 256)
    norm_num at h
    rw [Nat.lor_comm, ← h]
    omega
  have e4 : n &&& 32767 = n % 32768 := by
    have h := Nat.and_pow_two_sub_one_eq_mod n 15
    norm_num at h
    exact h
  simp only [decodeSample, ge_iff_le]
  rw [e0, e1, e2, e3, e4]

/-- The decoder applied to an encoded sample recovers the rounded scaled
integer divided by the branch scale. -/
theorem decode_encodeSample (x : ℚ) (h1 : -1 ≤ x) (h2 : x ≤ 1) :
    decodeSample (encodeSample x).1 (encodeSample x).2 =
      if 0 ≤ x then ((round (x * 32767) : ℤ) : ℚ) / 32767
      else ((round (x * 32768) : ℤ) : ℚ) / 32768 := by
  by_cases hx : 0 ≤ x
  · set s : ℤ := round (x * 32767) with hs
    have hr : |x * 32767 - (s : ℚ)| ≤ 1 / 2 := abs_sub_round (x * 32767)
    have habs := abs_le.mp hr
    have hy0 : (0 : ℚ) ≤ x * 32767 := by positivity
    have hy1 : x * 32767 ≤ 32767 := by nlinarith
    have hs0 : 0 ≤ s := by
      have hq : (-1 : ℚ) < (s : ℚ) := by linarith [habs.2]
      have : (-1 : ℤ) < s := by exact_mod_cast hq
      omega
    have hs1 : s ≤ 32767 := by
      have hq : (s : ℚ) < 32768 := by linarith [habs.1]
      have : s < 32768 := by exact_mod_cast hq
      omega
    have hemod : s % 65536 = s := Int.emod_eq_of_lt hs0 (by omega)
    have henc : encodeSample x = (s.toNat % 256, s.toNat / 256) := by
      simp only [encodeSample, if_pos hx, ← hs, hemod]
    rw [henc]
    have hnlt : s.toNat < 65536 := by omega
    rw [decodeSample_eq s.toNat hnlt, if_neg (by omega : ¬ 32768 ≤ s.toNat),
      if_pos hx]
    have hcast : ((s.toNat : ℕ) : ℚ) = (s : ℚ) := by
      exact_mod_cast congrArg (fun z : ℤ => (z : ℚ)) (Int.toNat_of_nonneg hs0)
    rw [hcast]
  · have hxneg : x < 0 := not_le.mp hx
    set s : ℤ := round (x * 32768) with hs
    have hr : |x * 32768 - (s : ℚ)| ≤ 1 / 2 := abs_sub_round (x * 32768)
    have habs := abs_le.mp hr
    have hy0 : x * 32768 < 0 := by nlinarith
    have hy1 : (-32768 : ℚ) ≤ x * 32768 := by nlinarith
    have hs_le : s ≤ 0 := by
      have hq : (s : ℚ) < 1 := by linarith [habs.1]
      have : s < 1 := by exact_mod_cast hq
      omega
    have hs_ge : -32768 ≤ s := by
      have hq : (-32769 : ℚ) < (s : ℚ) := by linarith [habs.2]
      have : (-32769 : ℤ) < s := by exact_mod_cast hq
      omega
    rcases eq_or_lt_of_le hs_le with heq | hlt
    · have henc : encodeSample x = (0, 0) := by
        simp only [encodeSample, if_neg hx, ← hs, heq]
        norm_num
      rw [henc, if_neg hx]
      have hd : decodeSample 0 0 = 0 := by
        norm_num [decodeSample]
      rw [hd, heq]
      norm_num
    · have hemod : s % 65536 = s + 65536 := by
        have h := Int.add_mul_emod_self_left (a := s) (b := 65536) (c := 1)
        calc s % 65536 = (s + 65536 * 1) % 65536 := h.symm
          _ = s + 65536 := by
              rw [mul_one]
              exact Int.emod_eq_of_lt (by omega) (by omega)
      have henc : encodeSample x =
          ((s + 65536).toNat % 256, (s + 65536).toNat / 256) := by
        simp only [encodeSample, if_neg hx, ← hs, hemod]
      rw [henc]
      have hnlt : (s + 65536).toNat < 65536 := by omega
      have hnge : 32768 ≤ (s + 65536).toNat := by omega
      rw [decodeSample_eq _ hnlt, if_pos hnge, if_neg hx]
      have hmod : (s + 65536).toNat % 32768 = (s + 32768).toNat := by omega
      rw [hmod]
      have hcast : (((s + 32768).toNat : ℕ) : ℚ) = (s : ℚ) + 32768 := by
        exact_mod_cast congrArg (fun z : ℤ => (z : ℚ))
          (Int.toNat_of_nonneg (by omega : (0 : ℤ) ≤ s + 32768))
      rw [hcast]
      ring

/-- Per-sample round trip: encode then decode moves a sample of [-1, 1] by at
most 1/32768. -/
theorem sample_round_trip (x : ℚ) (h1 : -1 ≤ x) (h2 : x ≤ 1) :
    |decodeSample (encodeSample x).1 (encodeSample x).2 - x| ≤ 1 / 32768 := by
  rw [decode_encodeSample x h1 h2]
  by_cases hx : 0 ≤ x
  · rw [if_pos hx]
    have hb : |((round (x * 32767) : ℤ) : ℚ) - x * 32767| ≤ 1 / 2 := by
      rw [abs_sub_comm]
      exact abs_sub_round (x * 32767)
    have heq : ((round (x * 32767) : ℤ) : ℚ) / 32767 - x
        = (((round (x * 32767) : ℤ) : ℚ) - x * 32767) / 32767 := by
      ring
    rw [heq, abs_div, abs_of_pos (by norm_num : (0 : ℚ) < 32767)]
    calc |((round (x * 32767) : ℤ) : ℚ) - x * 32767| / 32767
        ≤ (1 / 2) / 32767 := by gcongr
      _ ≤ 1 / 32768 := by norm_num
  · rw [if_neg hx]
    have hb : |((round (x * 32768) : ℤ) : ℚ) - x * 32768| ≤ 1 / 2 := by
      rw [abs_sub_comm]
      exact abs_sub_round (x * 32768)
    have heq : ((round (x * 32768) : ℤ) : ℚ) / 32768 - x
        = (((round (x * 32768) : ℤ) : ℚ) - x * 32768) / 32768 := by
      ring
    rw [heq, abs_div, abs_of_pos (by norm_num : (0 : ℚ) < 32768)]
    calc |((round (x * 32768) : ℤ) : ℚ) - x * 32768| / 32768
        ≤ (1 / 2) / 32768 := by gcongr
      _ ≤ 1 / 32768 := by norm_num

/-- C5: PCM round trip — encoding any sequence of samples in [-1, 1] as
16-bit signed little-endian PCM and decoding the byte stream back with the
chunk decoder reproduces every sample within 1/32768 absolute error
(elementwise over the decoded buffer). -/
theorem pcm_round_trip (xs : List ℚ) (h : ∀ x ∈ xs, -1 ≤ x ∧ x ≤ 1) :
    List.Forall₂ (fun x y => |y - x| ≤ 1 / 32768) xs
      (convertPcmToAudioBuffer (encodePcm xs)) := by
  induction xs with
  | nil => simp [encodePcm, convertPcmToAudioBuffer]
  | cons x xs ih =>
    have hx := h x (by simp)
    simp only [encodePcm, convertPcmToAudioBuffer]
    exact List.Forall₂.cons (sample_round_trip x hx.1 hx.2)
      (ih fun y hy => h y (by simp [hy]))

/-- Witness for `pcm_round_trip` on a concrete sample list. -/
theorem pcm_round_trip_witness :
    (∀ x ∈ [(1 : ℚ) / 2, -1, 0, 1], -1 ≤ x ∧ x ≤ 1) ∧
    List.Forall₂ (fun x y => |y - x| ≤ 1 / 32768) [(1 : ℚ) / 2, -1, 0, 1]
      (convertPcmToAudioBuffer (encodePcm [(1 : ℚ) / 2, -1, 0, 1])) :=
  ⟨by norm_num, pcm_round_trip _ (by norm_num)⟩
